import Mathlib

/-!
Verification development for the inatcog chat-bot plugin (dronefly).

This file gives a shallow embedding, in Lean 4, of the query-parsing,
last-mention tracking, ancestor navigation and command-handler logic of the
repository, and proves (or refutes) the frozen claims about it.

Embedding conventions:
- Python functions become Lean functions; raised exceptions become values of
  an explicit error type carried in `Except`.
- The behaviour of Python standard-library collaborators used by the code
  (`shlex.split`, `argparse` as configured by `CompoundQueryConverter`) is
  embedded faithfully for the configuration the source constructs.
- Components of the repository that the claims depend on but whose source
  files are not available (the natural-language query scanner, the rank
  vocabulary, the taxon ancestor walk, the last-mention link scanner and the
  comma-separated multi-taxon resolver) are modelled from the specification;
  each such definition carries a doc comment starting with
  `Modelled from the spec:`.
-/

/-! ## Character/string helpers (kernel-reducible replacements for library
string functions defined by well-founded recursion) -/

/-- ASCII lowercase of a string, as Python `str.lower` behaves on the ASCII
inputs relevant here. Defined directly on the character list so it reduces
definitionally. -/
def strLower (s : String) : String := ⟨s.data.map Char.toLower⟩

/-- Whether `p` is a leading run of `l` (used for option-abbreviation
matching). -/
def charsPrefix : List Char → List Char → Bool
  | [], _ => true
  | _ :: _, [] => false
  | a :: as, b :: bs => a == b && charsPrefix as bs

/-- `Except.isOk` as a plain Bool function. -/
def isOkB {ε α : Type} : Except ε α → Bool
  | .ok _ => true
  | .error _ => false

theorem isOkB_iff {ε α : Type} (r : Except ε α) :
    isOkB r = true ↔ ∃ a, r = .ok a := by
  cases r <;> simp [isOkB]

/-! ## `shlex.split` (POSIX mode, whitespace split)

`CompoundQueryConverter.convert` (src/inatcog/converters.py line 106) calls
`shlex.split(argument)`. The embedding below is the CPython `shlex.read_token`
state machine specialised to `posix=True`, `whitespace_split=True`,
`comments=False`: whitespace separates tokens; single and double quotes group
characters (quotes stripped, an empty quoted string yields an empty token);
outside quotes a backslash escapes any single character; inside double quotes
a backslash escapes only `"` and `\` and is otherwise kept; inside single
quotes nothing is escaped. An unclosed quote raises
`ValueError("No closing quotation")` and a trailing backslash raises
`ValueError("No escaped character")`. -/

inductive ShlexState : Type
  | ws
  | word
  | inQuote (q : Char)
  | escaped (fromQuote : Option Char)
deriving DecidableEq

/-- One whitespace character for the shlex scanner (`' \t\r\n'`). -/
def shlexWhitespace (c : Char) : Bool :=
  c == ' ' || c == '\t' || c == '\r' || c == '\n'

def shlexRun : List Char → ShlexState → String → Bool → List String →
    Except String (List String)
  | [], st, cur, _quoted, acc =>
    match st with
    | .ws => .ok acc
    | .word => .ok (acc ++ [cur])
    | .inQuote _ => .error "No closing quotation"
    | .escaped _ => .error "No escaped character"
  | c :: rest, st, cur, quoted, acc =>
    match st with
    | .ws =>
      if shlexWhitespace c then shlexRun rest .ws "" false acc
      else if c == '\\' then shlexRun rest (.escaped none) cur quoted acc
      else if c == '"' || c == '\'' then shlexRun rest (.inQuote c) cur true acc
      else shlexRun rest .word (cur.push c) quoted acc
    | .word =>
      if shlexWhitespace c then shlexRun rest .ws "" false (acc ++ [cur])
      else if c == '\\' then shlexRun rest (.escaped none) cur quoted acc
      else if c == '"' || c == '\'' then shlexRun rest (.inQuote c) cur true acc
      else shlexRun rest .word (cur.push c) quoted acc
    | .inQuote q =>
      if c == q then shlexRun rest .word cur quoted acc
      else if q == '"' && c == '\\' then
        shlexRun rest (.escaped (some '"')) cur quoted acc
      else shlexRun rest (.inQuote q) (cur.push c) quoted acc
    | .escaped fromQ =>
      match fromQ with
      | none => shlexRun rest .word (cur.push c) quoted acc
      | some q =>
        -- inside double quotes only the quote itself and the backslash may
        -- be escaped; otherwise the backslash is kept
        let cur' := if c ≠ '\\' ∧ c ≠ q then (cur.push '\\').push c
                    else cur.push c
        shlexRun rest (.inQuote q) cur' quoted acc

/-- Embedding of `shlex.split(argument)` as called by
`CompoundQueryConverter.convert`: returns the token list, or the message of
the `ValueError` the tokenizer raises. -/
def shlexSplit (s : String) : Except String (List String) :=
  shlexRun s.data .ws "" false []

example : shlexSplit "birds in animals" = .ok ["birds", "in", "animals"] := rfl
example : shlexSplit "a\"b c\"d" = .ok ["ab cd"] := rfl
example : shlexSplit "\"\" x" = .ok ["", "x"] := rfl
example : shlexSplit "" = .ok [] := rfl
example : shlexSplit "\"bear" = .error "No closing quotation" := rfl
example : shlexSplit "abc\\" = .error "No escaped character" := rfl

/-! ## `argparse` as configured by `CompoundQueryConverter.convert`

The converter (src/inatcog/converters.py lines 100-106) builds a parser with
exactly four optional arguments, `--of`, `--in`, `--by`, `--from`, each with
`nargs="*"` and default `[]`, and no positional arguments. The embedding
below reproduces `parse_args` for that configuration (checked against CPython
3.11): a token is option-like when it starts with `-`, is not a lone `-`,
does not look like a negative number (this parser has no numeric-looking
option strings) and contains no space; unique leading abbreviations of the
four option strings are accepted, as is `--opt=value`; an option with
`nargs="*"` consumes following non-option-like tokens (an explicit `=value`
consumes only that value); the first `--` stops consumption and it and every
following token are unrecognized positionals; any unrecognized token makes
`parse_args` call `parser.error`. -/

inductive ArgDest : Type
  | main
  | ancestor
  | user
  | place
deriving DecidableEq

/-- The `argparse.Namespace` produced by `parse_args`: one destination per
option, each defaulting to `[]`. -/
structure ArgNamespace where
  main : List String := []
  ancestor : List String := []
  user : List String := []
  place : List String := []
deriving DecidableEq

def setDest (ns : ArgNamespace) (d : ArgDest) (vals : List String) :
    ArgNamespace :=
  match d with
  | .main => { ns with main := vals }
  | .ancestor => { ns with ancestor := vals }
  | .user => { ns with user := vals }
  | .place => { ns with place := vals }

/-- The four option strings registered by the converter, with their
destinations. -/
def optionDests : List (String × ArgDest) :=
  [("--of", .main), ("--in", .ancestor), ("--by", .user), ("--from", .place)]

/-- Matches the regular expression `-\d+` or `-\d*\.\d+` (argparse's
negative-number matcher); such tokens count as positionals because this
parser has no numeric-looking option strings. -/
def looksLikeNegativeNumber (t : String) : Bool :=
  match t.data with
  | '-' :: rest =>
    (!rest.isEmpty && rest.all Char.isDigit) ||
      (match (rest.span Char.isDigit).2 with
       | '.' :: frac => !frac.isEmpty && frac.all Char.isDigit
       | _ => false)
  | _ => false

/-- Resolve a flag string to a destination: exact match, then a unique
leading abbreviation (`--o` for `--of`, and so on; no two of the four
options share a longer prefix, so the ambiguous case cannot arise for a flag
other than `--`, which is handled separately). -/
def resolveFlag (flag : String) : Option ArgDest :=
  match optionDests.lookup flag with
  | some d => some d
  | none =>
    match optionDests.filter (fun p => charsPrefix flag.data p.1.data) with
    | [(_, d)] => some d
    | _ => none

inductive ArgTok : Type
  | arg (raw : String)
  | sep
  | knownOpt (d : ArgDest) (explicitArg : Option String)
  | unknownOpt (raw : String)
deriving DecidableEq

/-- Split `flag=value` at the first `=`. -/
def splitEq (t : String) : Option (String × String) :=
  match t.data.splitOn '=' with
  | [_] => none
  | flag :: rest =>
    some (⟨flag⟩, ⟨(rest.map (fun l => l ++ ['='])).flatten.dropLast⟩)
  | [] => none

def classifyToken (t : String) : ArgTok :=
  if t == "--" then .sep
  else
    match t.data with
    | [] => .arg t
    | c :: rest =>
      if c ≠ '-' then .arg t
      else if rest.isEmpty then .arg t -- a lone "-" is a positional
      else if looksLikeNegativeNumber t then .arg t
      else if t.data.contains ' ' then .arg t
      else
        match optionDests.lookup t with
        | some d => .knownOpt d none
        | none =>
          match splitEq t with
          | some (flag, explicitArg) =>
            match resolveFlag flag with
            | some d => .knownOpt d (some explicitArg)
            | none => .unknownOpt t
          | none =>
            match resolveFlag t with
            | some d => .knownOpt d none
            | none => .unknownOpt t

/-- Tokens after the first `--` are all positionals. -/
def markToks : List String → Bool → List ArgTok
  | [], _ => []
  | t :: rest, false =>
    match classifyToken t with
    | .sep => .sep :: markToks rest true
    | tok => tok :: markToks rest false
  | t :: rest, true => .arg t :: markToks rest true

def flushPending (ns : ArgNamespace) (pending : Option (ArgDest × List String)) :
    ArgNamespace :=
  match pending with
  | none => ns
  | some (d, vals) => setDest ns d vals

/-- The `parse_args` main loop for this parser: `pending` is the option
currently consuming `nargs="*"` values; `extras` collects unrecognized
tokens, and any extras make `parse_args` report an error (through
`NoExitParser.error`). -/
def parseLoop : List ArgTok → ArgNamespace → Option (ArgDest × List String) →
    List String → Except String ArgNamespace
  | [], ns, pending, extras =>
    if extras.isEmpty then .ok (flushPending ns pending)
    else .error "unrecognized arguments"
  | .arg t :: rest, ns, some (d, vals), extras =>
    parseLoop rest ns (some (d, vals ++ [t])) extras
  | .arg t :: rest, ns, none, extras =>
    parseLoop rest ns none (extras ++ [t])
  | .sep :: rest, ns, pending, extras =>
    -- "--" stops option consumption and is itself unrecognized here
    parseLoop rest (flushPending ns pending) none (extras ++ ["--"])
  | .unknownOpt t :: rest, ns, pending, extras =>
    parseLoop rest (flushPending ns pending) none (extras ++ [t])
  | .knownOpt d (some v) :: rest, ns, pending, extras =>
    parseLoop rest (setDest (flushPending ns pending) d [v]) none extras
  | .knownOpt d none :: rest, ns, pending, extras =>
    parseLoop rest (flushPending ns pending) (some (d, [])) extras

/-- Embedding of `parser.parse_args(tokens)` for the converter's parser. An
error value stands for the call to `NoExitParser.error` (the message is
discarded there, see converters.py line 90). -/
def parseArgs (toks : List String) : Except String ArgNamespace :=
  parseLoop (markToks toks false) {} none []

example : parseArgs [] = .ok {} := rfl
example : parseArgs ["--of", "birds"] = .ok { main := ["birds"] } := rfl
example : parseArgs ["--of", "birds", "in", "animals"] =
    .ok { main := ["birds", "in", "animals"] } := rfl
example : isOkB (parseArgs ["birds", "in", "animals"]) = false := rfl
example : parseArgs ["--of", "--in", "x"] = .ok { ancestor := ["x"] } := rfl
example : parseArgs ["--o", "birds"] = .ok { main := ["birds"] } := rfl
example : parseArgs ["--of=birds"] = .ok { main := ["birds"] } := rfl
example : isOkB (parseArgs ["--of=birds", "more"]) = false := rfl
example : isOkB (parseArgs ["--"]) = false := rfl
example : isOkB (parseArgs ["--of", "a", "--", "b"]) = false := rfl
example : isOkB (parseArgs ["-5"]) = false := rfl
example : parseArgs ["--of", "-5"] = .ok { main := ["-5"] } := rfl
example : isOkB (parseArgs ["--of", "-x"]) = false := rfl
example : isOkB (parseArgs ["--off"]) = false := rfl
example : parseArgs ["--of", "a", "--of", "b"] = .ok { main := ["b"] } := rfl
example : parseArgs ["--of="] = .ok { main := [""] } := rfl

/-! ## Error model

Python exceptions relevant to the claims, each carrying its `args` tuple:
`BadArgument` (the spec's `MalformedQuery`), `LookupError` (the spec's
`NotFound`/`Ambiguous` carrier), and the uncaught `ValueError`, `TypeError`,
`AttributeError`, `IndexError` conditions the code can raise. -/

inductive CoreError : Type
  | badArgument (args : List String)
  | lookupError (args : List String)
  | valueError (args : List String)
  | typeError (args : List String)
deriving DecidableEq

/-- The `args` tuple of the exception (`err.args`). -/
def errArgs : CoreError → List String
  | .badArgument a => a
  | .lookupError a => a
  | .valueError a => a
  | .typeError a => a

/-- `err.args[0]` as the handlers evaluate it; `none` models the
`IndexError` raised when `args` is empty. -/
def errArgsHead (e : CoreError) : Option String := (errArgs e).head?

/-- `NoExitParser.error` (src/inatcog/converters.py lines 86-90): discards
the argparse message and raises a `BadArgument` with NO arguments
(`raise BadArgument() from None`). -/
def noExitParserError (_message : String) : CoreError :=
  CoreError.badArgument []

/-! ## `CompoundQuery` and `CompoundQueryConverter.convert`

`commands/taxon.py` (line 151) accesses `query.main.ranks` and
`query.main.terms`, so each clause bucket is a record of term list plus rank
filters (the `SimpleQuery` of the missing taxon_classes.py). -/

structure SimpleQuery where
  terms : List String := []
  ranks : List String := []
deriving DecidableEq

structure CompoundQuery where
  main : SimpleQuery := {}
  ancestor : SimpleQuery := {}
  user : SimpleQuery := {}
  place : SimpleQuery := {}
  group_by : String := ""
deriving DecidableEq

/-- Message of the `TypeError` raised by subscripting an
`argparse.Namespace` (Python: `'Namespace' object is not subscriptable`;
the quotes of the original message are dropped here). -/
def nsSubscriptErrorMsg : String := "Namespace object is not subscriptable"

/-- `vals["main"]` where `vals` is the `argparse.Namespace` returned by
`parse_args`: `Namespace` has no `__getitem__`, so every subscript raises
`TypeError`. -/
def namespaceGetItem (_vals : ArgNamespace) (_key : String) :
    Except CoreError (List String) :=
  .error (.typeError [nsSubscriptErrorMsg])

/-- Embedding of `CompoundQueryConverter.convert`
(src/inatcog/converters.py lines 96-114): `shlex.split`, then `parse_args`
(whose errors become the message-less `BadArgument` of `NoExitParser`),
then the four `vals[...]` subscripts. The `shlex.split` call is NOT wrapped
in the source, so its `ValueError` propagates uncaught. -/
def convert (argument : String) : Except CoreError CompoundQuery :=
  match shlexSplit argument with
  | .error msg => .error (.valueError [msg])
  | .ok toks =>
    match parseArgs toks with
    | .error msg => .error (noExitParserError msg)
    | .ok vals =>
      match namespaceGetItem vals "main" with
      | .error e => .error e
      | .ok mainVals =>
        match namespaceGetItem vals "ancestor" with
        | .error e => .error e
        | .ok ancestorVals =>
          match namespaceGetItem vals "user" with
          | .error e => .error e
          | .ok userVals =>
            match namespaceGetItem vals "place" with
            | .error e => .error e
            | .ok placeVals =>
              .ok { main := ⟨mainVals, []⟩, ancestor := ⟨ancestorVals, []⟩,
                    user := ⟨userVals, []⟩, place := ⟨placeVals, []⟩,
                    group_by := "" }

example : convert "--of birds" = .error (.typeError [nsSubscriptErrorMsg]) := rfl
example : convert "birds in animals" = .error (.badArgument []) := rfl
example : convert "\"bear" = .error (.valueError ["No closing quotation"]) := rfl

/-! ## The natural-language compound query scanner (spec section 4.1)

`commands/taxon.py` imports `NaturalCompoundQueryConverter` from
`inatcog.converters`, but that converter (and the rank vocabulary of
`parsers.py`) is not present in the available source files; only its callers
are. The definitions below model it from the specification. -/

/-- Modelled from the spec: the Rank Vocabulary abbreviations
(`RANK_EQUIVALENTS` of the missing parsers.py). The four abbreviations are
listed in the `taxon` command help text (src/inatcog/inatcog.py lines
613-618). -/
def RANK_EQUIVALENTS : List (String × String) :=
  [("sp", "species"), ("ssp", "subspecies"), ("gen", "genus"),
   ("var", "variety")]

/-- Modelled from the spec: the Rank Vocabulary keywords (`RANK_KEYWORDS` of
the missing parsers.py): the ordered rank names of spec sections 2-3 plus
the abbreviations. -/
def RANK_KEYWORDS : List String :=
  ["kingdom", "subkingdom", "phylum", "subphylum", "superclass", "class",
   "subclass", "superorder", "order", "suborder", "infraorder",
   "superfamily", "epifamily", "family", "subfamily", "supertribe", "tribe",
   "subtribe", "genus", "species", "subspecies", "variety", "form"] ++
    RANK_EQUIVALENTS.map Prod.fst

def isRankKeyword (t : String) : Bool := RANK_KEYWORDS.contains (strLower t)

/-- Canonical rank identifier for a rank keyword (the many-to-one keyword
mapping of the Rank Vocabulary). -/
def canonicalRank (t : String) : String :=
  (RANK_EQUIVALENTS.lookup (strLower t)).getD (strLower t)

inductive BucketId : Type
  | main
  | ancestor
  | user
  | place
deriving DecidableEq

/-- Modelled from the spec: which bucket a clause keyword switches to; the
three clause keywords `in`, `by`, `from` are compared case-insensitively. -/
def clauseBucket (t : String) : Option BucketId :=
  if strLower t = "in" then some .ancestor
  else if strLower t = "by" then some .user
  else if strLower t = "from" then some .place
  else none

/-- A token case-insensitively equal to `in`, `by` or `from`. -/
def isClauseKeyword (t : String) : Bool := (clauseBucket t).isSome

/-- Append a scanned token to a bucket: the token always joins the term
list, and a token matching a Rank Vocabulary keyword is additionally
recorded as a rank filter (it is NOT removed from the terms). -/
def addTokenToBucket (b : SimpleQuery) (t : String) : SimpleQuery :=
  { terms := b.terms ++ [t],
    ranks := b.ranks ++ (if isRankKeyword t then [canonicalRank t] else []) }

def updateBucket (q : CompoundQuery) (which : BucketId) (t : String) :
    CompoundQuery :=
  match which with
  | .main => { q with main := addTokenToBucket q.main t }
  | .ancestor => { q with ancestor := addTokenToBucket q.ancestor t }
  | .user => { q with user := addTokenToBucket q.user t }
  | .place => { q with place := addTokenToBucket q.place t }

/-- Modelled from the spec: the left-to-right scan of section 4.1 — keep a
current bucket (`main`, the subject, by default); a clause keyword switches
the bucket and is not emitted as a term; every other token is appended to
the current bucket. -/
def scanTokens : List String → BucketId → CompoundQuery → CompoundQuery
  | [], _, q => q
  | t :: rest, cur, q =>
    match clauseBucket t with
    | some b => scanTokens rest b q
    | none => scanTokens rest cur (updateBucket q cur t)

/-- Modelled from the spec: `parse(raw_text) -> CompoundQuery` of section
4.1, the natural-language converter missing from the available source
(`NaturalCompoundQueryConverter`): shell-style tokenization (failure is the
`MalformedQuery` bad-argument condition), then the bucket scan. -/
def parse (raw : String) : Except CoreError CompoundQuery :=
  match shlexSplit raw with
  | .error msg => .error (.badArgument [msg])
  | .ok toks => .ok (scanTokens toks .main {})

example : parse "birds in animals by me from home" =
    .ok { main := ⟨["birds"], []⟩, ancestor := ⟨["animals"], []⟩,
          user := ⟨["me"], []⟩, place := ⟨["home"], []⟩ } := rfl
example : parse "bear family" =
    .ok { main := ⟨["bear", "family"], ["family"]⟩ } := rfl
example : parse "t ssp IN Anas" =
    .ok { main := ⟨["t", "ssp"], ["subspecies"]⟩,
          ancestor := ⟨["Anas"], []⟩ } := rfl

/-! ## Taxa, the Ancestor Navigator and `last obs <rank>` -/

/-- A taxon record as the commands read it: identifier and rank (the fields
the claims depend on). -/
structure TaxonSummary where
  taxon_id : Nat
  rank : String
deriving DecidableEq

/-- A full taxon record with its materialized ancestor chain, ordered
root-to-leaf; by the data model the chain ends with the taxon itself. -/
structure FullTaxon where
  self : TaxonSummary
  ancestors : List TaxonSummary
deriving DecidableEq

/-- Modelled from the spec: `find_ancestor(taxon, target_rank)` of section
4.3 (`get_taxon_ancestor` of the missing taxa.py): if the taxon already has
the target rank it is returned unchanged without walking; otherwise the
root-to-leaf chain is walked in reverse (leaf toward root) and the first
entry whose rank equals the target is returned, `None` if there is none. -/
def find_ancestor (taxon : FullTaxon) (targetRank : String) :
    Option TaxonSummary :=
  if taxon.self.rank = targetRank then some taxon.self
  else taxon.ancestors.reverse.find? (fun a => a.rank == targetRank)

/-- An observation record as `last obs` commands read it. -/
structure ObsRec where
  obs_id : Nat
  taxon : Option TaxonSummary
deriving DecidableEq

/-- The last-observation mention reconstructed from history (`last.obs`). -/
structure LastObsMsg where
  obs : Option ObsRec
deriving DecidableEq

inductive RankCmdOutcome : Type
  | nothingFound
  | helpShown
  | taxonEmbed (t : TaxonSummary)
  | noRankAncestor (rankKeyword : String)
  | noTaxonApology
  | attributeErrorRaised
deriving DecidableEq

def isNoTaxonApology : RankCmdOutcome → Bool
  | .noTaxonApology => true
  | _ => false

/-- Embedding of `INatCog.last_obs_rank` (src/inatcog/inatcog.py lines
250-286). `fetchFull` stands for `get_taxon` fetching the full record with
ancestors; `last` is the result of `get_last_obs_from_history`;
`invokedWith` is `ctx.invoked_with`. The branch structure follows the
source: the comparison `last.obs.taxon.rank == rank_keyword` is evaluated
BEFORE the `elif last.obs.taxon:` test, so a missing taxon raises
`AttributeError` there; the final `else` sends
"The last observation has no taxon.". -/
def last_obs_rank (fetchFull : Nat → FullTaxon) (last : Option LastObsMsg)
    (invokedWith : String) : RankCmdOutcome :=
  match last with
  | none => .nothingFound                     -- if not (last and last.obs)
  | some l =>
    match l.obs with
    | none => .nothingFound
    | some obs =>
      if invokedWith = "<rank>" then .helpShown
      else
        -- rank_keyword = RANK_EQUIVALENTS.get(rank) or rank
        let rankKeyword := (RANK_EQUIVALENTS.lookup invokedWith).getD invokedWith
        match obs.taxon with
        | none => .attributeErrorRaised       -- None has no attribute rank
        | some t =>
          if t.rank = rankKeyword then .taxonEmbed t
          else if obs.taxon.isSome then       -- elif last.obs.taxon:
            match find_ancestor (fetchFull t.taxon_id) rankKeyword with
            | some a => .taxonEmbed a
            | none => .noRankAncestor rankKeyword
          else .noTaxonApology                -- "The last observation has no taxon."

example :
    last_obs_rank (fun _ => ⟨⟨1, "kingdom"⟩, []⟩) (some ⟨some ⟨42, none⟩⟩)
      "family" = .attributeErrorRaised := rfl

/-! ## The Last-Mention Tracker (spec section 4.4) -/

/-- A chat message as the tracker reads it. -/
structure ChatMessage where
  content : String
deriving DecidableEq

/-- The last-observation mention: the referenced record (possibly a dead
reference) and the source message. -/
structure LastObsMention where
  obs : Option ObsRec
  msg : ChatMessage
deriving DecidableEq

structure LastTaxonMention where
  taxon : Option TaxonSummary
  msg : ChatMessage
deriving DecidableEq

/-- Modelled from the spec: `INatLinkMsg.get_last_obs_msg` of the missing
last.py (section 4.4): scan the newest-first message sequence, apply the
observation-link recognizer (`recognize`, an externally supplied pattern
returning the extracted identifier), and on the first structural match
fetch the record from the collaborator (`fetchObs`) and return
immediately; no match over the whole window yields `None`. -/
def get_last_obs_msg (recognize : String → Option Nat)
    (fetchObs : Nat → Option ObsRec) : List ChatMessage →
    Option LastObsMention
  | [] => none
  | m :: rest =>
    match recognize m.content with
    | some obsId => some ⟨fetchObs obsId, m⟩
    | none => get_last_obs_msg recognize fetchObs rest

/-- Modelled from the spec: `INatLinkMsg.get_last_taxon_msg` of the missing
last.py, the taxon-link analogue of `get_last_obs_msg`. -/
def get_last_taxon_msg (recognize : String → Option Nat)
    (fetchTaxon : Nat → Option TaxonSummary) : List ChatMessage →
    Option LastTaxonMention
  | [] => none
  | m :: rest =>
    match recognize m.content with
    | some taxonId => some ⟨fetchTaxon taxonId, m⟩
    | none => get_last_taxon_msg recognize fetchTaxon rest

/-- The external collaborators held on `self.api`: the two link-pattern
recognizers and the record lookups. -/
structure INatApiHandles where
  obsPat : String → Option Nat
  taxonPat : String → Option Nat
  getObs : Nat → Option ObsRec
  getTaxon : Nat → Option TaxonSummary

/-- The cog state visible to the tracker: only the api handles — the source
keeps NO last-mention field between invocations. -/
structure INatCogState where
  api : INatApiHandles

/-- Embedding of `INatCog.get_last_obs_from_history` (src/inatcog/inatcog.py
lines 191-195): fetch up to 1000 recent messages, construct a FRESH
`INatLinkMsg(self.api)` and scan; the cog state is returned unchanged. -/
def get_last_obs_from_history (cog : INatCogState)
    (channelHistory : List ChatMessage) :
    Option LastObsMention × INatCogState :=
  let msgs := channelHistory.take 1000        -- ctx.history(limit=1000)
  (get_last_obs_msg cog.api.obsPat cog.api.getObs msgs, cog)

/-- Embedding of `INatCog.get_last_taxon_from_history`
(src/inatcog/inatcog.py lines 197-201). -/
def get_last_taxon_from_history (cog : INatCogState)
    (channelHistory : List ChatMessage) :
    Option LastTaxonMention × INatCogState :=
  let msgs := channelHistory.take 1000
  (get_last_taxon_msg cog.api.taxonPat cog.api.getTaxon msgs, cog)

/-! ## Multi-taxon resolution and the `related`/`map` commands (spec 4.5) -/

/-- The Resolver's output: a resolved taxon plus the originating filters. -/
structure ResolvedTaxon where
  taxon : TaxonSummary
deriving DecidableEq

/-- Python `raw.split(",")`: split on every comma, keeping empty segments
(an empty input yields one empty segment). -/
def splitCommasAux : List Char → String → List String
  | [], cur => [cur]
  | c :: rest, cur =>
    if c = ',' then cur :: splitCommasAux rest ""
    else splitCommasAux rest (cur.push c)

def splitCommas (s : String) : List String := splitCommasAux s.data ""

example : splitCommas "24255,24267" = ["24255", "24267"] := rfl
example : splitCommas "" = [""] := rfl
example : splitCommas "a," = ["a", ""] := rfl

/-- Resolve the comma segments in order, failing with the FIRST per-segment
error (fail-fast, no partial result list). -/
def resolveSegments (resolve : String → Except String ResolvedTaxon) :
    List String → Except String (List ResolvedTaxon)
  | [] => .ok []
  | s :: rest =>
    match resolve s with
    | .error e => .error e
    | .ok t =>
      match resolveSegments resolve rest with
      | .error e => .error e
      | .ok ts => .ok (t :: ts)

/-- Modelled from the spec: `query_taxa` of the missing taxa.py (section
4.5, `resolve_many`): the raw text is split on commas and each segment is
independently run through the single-taxon resolver (abstracted here as the
`resolve` collaborator, raising `LookupError` reasons as `Except.error`). -/
def query_taxa (resolve : String → Except String ResolvedTaxon)
    (raw : String) : Except String (List ResolvedTaxon) :=
  resolveSegments resolve (splitCommas raw)

inductive TaxaCmdOutcome : Type
  | helpShown
  | apology (reason : String)
  | relatedEmbed (taxa : List ResolvedTaxon)
  | mapEmbed (taxa : List ResolvedTaxon)
deriving DecidableEq

/-- Embedding of `CommandsTaxon.related` (src/inatcog/commands/taxon.py
lines 154-177): empty input shows help; a `LookupError` from `query_taxa`
is rendered as the apology `err.args[0]` and nothing else; otherwise the
relatedness embed for the full list is sent. -/
def relatedCommand (resolve : String → Except String ResolvedTaxon)
    (taxaList : String) : TaxaCmdOutcome :=
  if taxaList = "" then .helpShown
  else
    match query_taxa resolve taxaList with
    | .error reason => .apology reason
    | .ok taxa => .relatedEmbed taxa

/-- Embedding of `CommandsTaxon.map` (src/inatcog/commands/taxon.py lines
201-225), same error discipline as `related`. -/
def mapCommand (resolve : String → Except String ResolvedTaxon)
    (taxaList : String) : TaxaCmdOutcome :=
  if taxaList = "" then .helpShown
  else
    match query_taxa resolve taxaList with
    | .error reason => .apology reason
    | .ok taxa => .mapEmbed taxa

/-! ## The `taxon` command handler (error surfacing, spec section 7) -/

inductive TaxonCmdOutcome : Type
  | apology (reason : String)
  | taxonEmbed (t : ResolvedTaxon)
  | indexErrorRaised
  | uncaughtException
deriving DecidableEq

/-- Embedding of `CommandsTaxon.taxon` (src/inatcog/commands/taxon.py lines
44-56): `check_taxon_query` failures are caught as `BadArgument` and
`query_taxon` failures as `LookupError`, each rendered as the apology
`err.args[0]`; `err.args[0]` on an exception with empty `args` raises
`IndexError`; exceptions of any other kind are not caught. -/
def taxon_command (checkResult : Except CoreError Unit)
    (queryResult : Except CoreError ResolvedTaxon) : TaxonCmdOutcome :=
  match checkResult with
  | .error (CoreError.badArgument args) =>
    match args.head? with
    | some reason => .apology reason
    | none => .indexErrorRaised
  | .error _ => .uncaughtException
  | .ok _ =>
    match queryResult with
    | .error (CoreError.lookupError args) =>
      match args.head? with
      | some reason => .apology reason
      | none => .indexErrorRaised
    | .error _ => .uncaughtException
    | .ok t => .taxonEmbed t

/-! ## `place add` and `project add` (reserved abbreviations) -/

/-- A guild-config mapping of abbreviations to numbers (Python dict with
insertion order). -/
abbrev AbbrevDict := List (String × Int)

/-- Python `k in d` / `d[k]` lookup on the insertion-ordered mapping. -/
def dictLookup (d : AbbrevDict) (k : String) : Option Int :=
  match d with
  | [] => none
  | (a, v) :: rest => if k = a then some v else dictLookup rest k

/-- Python `d[k] = v`: replace the value if the key exists, else append. -/
def dictSet (d : AbbrevDict) (k : String) (v : Int) : AbbrevDict :=
  if (dictLookup d k).isSome then
    d.map (fun p => if p.1 = k then (k, v) else p)
  else d ++ [(k, v)]

/-- The message sent for a reserved place abbreviation
(src/inatcog/inatcog.py lines 457-459; the original wraps the abbreviation
in single quotes, dropped here). -/
def placeReservedMsg (lowered : String) : String :=
  s!"Place abbreviation {lowered} cannot be added as it is reserved."

def placeAlreadyDefinedMsg (lowered : String) : String :=
  s!"Place abbreviation {lowered} is already defined."

def placeAddedMsg : String := "Place abbreviation added."

/-- Embedding of `INatCog.place_add` (src/inatcog/inatcog.py lines
447-470): the reserved-abbreviation branch sends its message but does NOT
return, so execution continues into the add logic. `reservedPlaces` stands
for `RESERVED_PLACES` of the missing places.py. Returns the updated places
dict and the messages sent. -/
def place_add (hasGuild : Bool) (reservedPlaces : List String)
    (places : AbbrevDict) (abbrevArg : String) (place_number : Int) :
    AbbrevDict × List String :=
  if !hasGuild then (places, [])
  else
    let lowered := strLower abbrevArg
    let msgs :=
      if reservedPlaces.contains lowered then [placeReservedMsg lowered]
      else []
    -- note: no early return above
    if (dictLookup places lowered).isSome then
      (places, msgs ++ [placeAlreadyDefinedMsg lowered])
    else
      (dictSet places lowered place_number, msgs ++ [placeAddedMsg])

def projectReservedMsg (lowered : String) : String :=
  s!"Project abbreviation {lowered} cannot be added as it is reserved."

def projectAlreadyDefinedMsg (lowered : String) : String :=
  s!"Project abbreviation {lowered} is already defined."

def projectAddedMsg : String := "Project abbreviation added."

/-- Embedding of `CommandsProject.project_add`
(src/inatcog/commands/project.py lines 36-59): identical structure to
`place_add`, including the missing early return after the reserved-abbreviation
message (the reserved set checked is likewise `RESERVED_PLACES`). -/
def project_add (hasGuild : Bool) (reservedPlaces : List String)
    (projects : AbbrevDict) (abbrevArg : String) (project_number : Int) :
    AbbrevDict × List String :=
  if !hasGuild then (projects, [])
  else
    let lowered := strLower abbrevArg
    let msgs :=
      if reservedPlaces.contains lowered then [projectReservedMsg lowered]
      else []
    if (dictLookup projects lowered).isSome then
      (projects, msgs ++ [projectAlreadyDefinedMsg lowered])
    else
      (dictSet projects lowered project_number, msgs ++ [projectAddedMsg])

/-! ## Claim theorems -/

/-- Claim C2 (code_bug evidence): on raw text with an unbalanced double
quote, `convert` surfaces the tokenizer's uncaught
`ValueError("No closing quotation")`, not the `MalformedQuery`
(`BadArgument`) condition the spec states. -/
theorem convert_unbalanced_quote_value_error :
    convert "\"bear" =
      Except.error (CoreError.valueError ["No closing quotation"]) := rfl

/-- Claim C4: `find_last_observation`/`find_last_taxon` are idempotent for a
fixed history: the scan is re-derived from the (up to 1000) supplied
messages on every invocation and the cog state is returned unchanged, so two
invocations over the same message sequence yield identical results. -/
theorem last_mention_idempotent :
    ∀ (cog : INatCogState) (history : List ChatMessage),
      (get_last_obs_from_history cog history).1 =
        (get_last_obs_from_history
          ((get_last_obs_from_history cog history).2) history).1 ∧
      (get_last_obs_from_history cog history).2 = cog ∧
      (get_last_taxon_from_history cog history).1 =
        (get_last_taxon_from_history
          ((get_last_taxon_from_history cog history).2) history).1 ∧
      (get_last_taxon_from_history cog history).2 = cog := by
  intro cog history
  exact ⟨rfl, rfl, rfl, rfl⟩

/-- Claim C5: `find_ancestor` returns the taxon itself unchanged when its
rank equals the target rank, and returns `none` when no entry of the
ancestor chain (which, by the data model, contains the taxon itself) has
the target rank. -/
theorem find_ancestor_rank :
    ∀ (taxon : FullTaxon) (targetRank : String),
      (taxon.self.rank = targetRank →
        find_ancestor taxon targetRank = some taxon.self) ∧
      (taxon.self ∈ taxon.ancestors →
        (∀ a ∈ taxon.ancestors, a.rank ≠ targetRank) →
        find_ancestor taxon targetRank = none) := by
  intro taxon targetRank
  constructor
  · intro h
    simp [find_ancestor, h]
  · intro hmem hall
    have hne : taxon.self.rank ≠ targetRank := hall _ hmem
    simp only [find_ancestor, if_neg hne]
    rw [List.find?_eq_none]
    intro a ha
    have hmem' : a ∈ taxon.ancestors := List.mem_reverse.mp ha
    simp [hall a hmem']

def c5Taxon : FullTaxon :=
  ⟨⟨3, "genus"⟩, [⟨1, "kingdom"⟩, ⟨2, "family"⟩, ⟨3, "genus"⟩]⟩

theorem find_ancestor_rank_witness :
    find_ancestor c5Taxon "genus" = some ⟨3, "genus"⟩ ∧
    find_ancestor c5Taxon "species" = none :=
  ⟨(find_ancestor_rank c5Taxon "genus").1 rfl,
   (find_ancestor_rank c5Taxon "species").2 (by decide) (by decide)⟩

/-- Claim C7 counterexample: the `MalformedQuery` condition raised by
`NoExitParser.error` carries NO reason string (its `args` is empty), so
`err.args[0]` on it does not produce a reason — a handler evaluating it
would raise `IndexError` — refuting the claim that every surfaced error
carries a human-readable reason string extracted as `err.args[0]`. -/
theorem error_reason_counterexample :
    errArgs (noExitParserError "unrecognized arguments") = [] ∧
    errArgsHead (noExitParserError "unrecognized arguments") = none ∧
    taxon_command
      (Except.error (noExitParserError "unrecognized arguments"))
      (Except.ok ⟨⟨1, "kingdom"⟩⟩) = TaxonCmdOutcome.indexErrorRaised :=
  ⟨rfl, rfl, rfl⟩

/-- Claim C7 amended: the surfaced errors are recoverable-by-caller
conditions, and for every error that does carry a reason string the command
handlers extract `err.args[0]` and show it as an apology; but the
`MalformedQuery` raised by `NoExitParser.error` is a `BadArgument` with NO
arguments, hence carries no reason string. -/
theorem error_reason_amended :
    (∀ message : String,
      noExitParserError message = CoreError.badArgument []) ∧
    (∀ (reason : String) (rest : List String)
        (q : Except CoreError ResolvedTaxon),
      taxon_command (Except.error (CoreError.badArgument (reason :: rest))) q =
        TaxonCmdOutcome.apology reason) ∧
    (∀ (reason : String) (rest : List String),
      taxon_command (Except.ok ())
          (Except.error (CoreError.lookupError (reason :: rest))) =
        TaxonCmdOutcome.apology reason) :=
  ⟨fun _ => rfl, fun _ _ _ => rfl, fun _ _ => rfl⟩

/-- Claim C8: whenever `shlex` tokenization succeeds and the tokens parse
under the argparse grammar, `convert` fails with the `TypeError` raised by
subscripting the returned `argparse.Namespace`; consequently the converter
never successfully returns a `CompoundQuery` for any input. -/
theorem convert_never_returns :
    ∀ argument : String,
      isOkB (convert argument) = false ∧
      (∀ (toks : List String) (vals : ArgNamespace),
        shlexSplit argument = Except.ok toks →
        parseArgs toks = Except.ok vals →
        convert argument =
          Except.error (CoreError.typeError [nsSubscriptErrorMsg])) := by
  intro argument
  constructor
  · cases h : shlexSplit argument with
    | error m => simp [convert, h, isOkB]
    | ok toks =>
      cases h2 : parseArgs toks with
      | error m => simp [convert, h, h2, isOkB]
      | ok vals => simp [convert, h, h2, namespaceGetItem, isOkB]
  · intro toks vals h1 h2
    simp [convert, h1, h2, namespaceGetItem]

theorem convert_never_returns_witness :
    isOkB (convert "--of birds") = false ∧
    convert "--of birds" =
      Except.error (CoreError.typeError [nsSubscriptErrorMsg]) :=
  ⟨(convert_never_returns "--of birds").1,
   (convert_never_returns "--of birds").2 ["--of", "birds"]
     { main := ["birds"] } rfl rfl⟩

theorem dictLookup_append (d : AbbrevDict) (k : String) (v : Int)
    (h : dictLookup d k = none) : dictLookup (d ++ [(k, v)]) k = some v := by
  induction d with
  | nil => simp [dictLookup]
  | cons p rest ih =>
    obtain ⟨a, b⟩ := p
    by_cases hk : k = a
    · simp [dictLookup, hk] at h
    · simp only [dictLookup, hk, if_false, List.cons_append] at h ⊢
      exact ih h

/-- Claim C9: when `place add` (or `project add`) is invoked with a reserved
abbreviation that is not already defined, the reserved-abbreviation message
is sent but — because that branch does not return early — the abbreviation
is still added to the guild configuration (and the added message is also
sent). -/
theorem reserved_abbrev_still_added :
    ∀ (reservedPlaces : List String) (places projects : AbbrevDict)
      (abbrevArg : String) (n : Int),
      reservedPlaces.contains (strLower abbrevArg) = true →
      dictLookup places (strLower abbrevArg) = none →
      dictLookup projects (strLower abbrevArg) = none →
      (place_add true reservedPlaces places abbrevArg n).2 =
        [placeReservedMsg (strLower abbrevArg), placeAddedMsg] ∧
      dictLookup (place_add true reservedPlaces places abbrevArg n).1
        (strLower abbrevArg) = some n ∧
      (project_add true reservedPlaces projects abbrevArg n).2 =
        [projectReservedMsg (strLower abbrevArg), projectAddedMsg] ∧
      dictLookup (project_add true reservedPlaces projects abbrevArg n).1
        (strLower abbrevArg) = some n := by
  intro rp places projects ab n hres hpl hpr
  have hmem : strLower ab ∈ rp := by simpa using hres
  refine ⟨?_, ?_, ?_, ?_⟩
  · simp [place_add, hmem, hpl]
  · simp only [place_add, Bool.not_true, if_false, hpl, Option.isSome_none,
      dictSet]
    exact dictLookup_append places _ n hpl
  · simp [project_add, hmem, hpr]
  · simp only [project_add, Bool.not_true, if_false, hpr, Option.isSome_none,
      dictSet]
    exact dictLookup_append projects _ n hpr

theorem reserved_abbrev_still_added_witness :
    (place_add true ["home"] [] "Home" 7).2 =
      [placeReservedMsg (strLower "Home"), placeAddedMsg] ∧
    dictLookup (place_add true ["home"] [] "Home" 7).1
      (strLower "Home") = some 7 ∧
    (project_add true ["home"] [] "Home" 7).2 =
      [projectReservedMsg (strLower "Home"), projectAddedMsg] ∧
    dictLookup (project_add true ["home"] [] "Home" 7).1
      (strLower "Home") = some 7 :=
  reserved_abbrev_still_added ["home"] [] [] "Home" 7 (by decide) rfl rfl

/-- Claim C10: in `last_obs_rank` the final "The last observation has no
taxon." apology branch is unreachable for every input, because when the
found observation has no taxon the equality test
`last.obs.taxon.rank == rank_keyword` raises `AttributeError` before the
taxon-presence check. -/
theorem last_obs_rank_no_taxon_unreachable :
    (∀ (fetchFull : Nat → FullTaxon) (last : Option LastObsMsg)
        (invokedWith : String),
      isNoTaxonApology (last_obs_rank fetchFull last invokedWith) = false) ∧
    last_obs_rank (fun _ => ⟨⟨1, "kingdom"⟩, []⟩) (some ⟨some ⟨42, none⟩⟩)
      "family" = RankCmdOutcome.attributeErrorRaised := by
  constructor
  · intro f last inv
    rcases last with _ | ⟨_ | ⟨oid, otax⟩⟩
    · rfl
    · rfl
    · rcases otax with _ | t
      · by_cases hinv : inv = "<rank>" <;>
          simp [last_obs_rank, hinv, isNoTaxonApology]
      · by_cases hinv : inv = "<rank>"
        · simp [last_obs_rank, hinv, isNoTaxonApology]
        · by_cases ht : t.rank = (RANK_EQUIVALENTS.lookup inv).getD inv
          · simp [last_obs_rank, hinv, ht, isNoTaxonApology]
          · cases hfa : find_ancestor (f t.taxon_id)
                ((RANK_EQUIVALENTS.lookup inv).getD inv) <;>
              simp [last_obs_rank, hinv, ht, hfa, isNoTaxonApology]
  · rfl

/-! ### Scan invariants for the natural-language parse -/

theorem clauseBucket_ne_main (t : String) (b : BucketId)
    (h : clauseBucket t = some b) : b ≠ BucketId.main := by
  unfold clauseBucket at h
  split at h
  · cases h; simp
  split at h
  · cases h; simp
  split at h
  · cases h; simp
  · cases h

theorem scan_main_frozen :
    ∀ (toks : List String) (cur : BucketId) (q : CompoundQuery),
      cur ≠ BucketId.main → (scanTokens toks cur q).main = q.main := by
  intro toks
  induction toks with
  | nil => intro cur q _; rfl
  | cons t rest ih =>
    intro cur q h
    cases hc : clauseBucket t with
    | some b =>
      simp only [scanTokens, hc]
      exact ih b q (clauseBucket_ne_main t b hc)
    | none =>
      simp only [scanTokens, hc]
      rw [ih cur _ h]
      cases cur with
      | main => exact absurd rfl h
      | ancestor => rfl
      | user => rfl
      | place => rfl

theorem scan_main_terms :
    ∀ (toks : List String) (q : CompoundQuery),
      (scanTokens toks .main q).main.terms =
        q.main.terms ++ toks.takeWhile (fun t => !isClauseKeyword t) := by
  intro toks
  induction toks with
  | nil => intro q; simp [scanTokens]
  | cons t rest ih =>
    intro q
    cases hc : clauseBucket t with
    | some b =>
      have hkw : isClauseKeyword t = true := by simp [isClauseKeyword, hc]
      simp only [scanTokens, hc, List.takeWhile_cons, hkw, Bool.not_true]
      simp [scan_main_frozen rest b q (clauseBucket_ne_main t b hc)]
    | none =>
      have hkw : isClauseKeyword t = false := by simp [isClauseKeyword, hc]
      simp only [scanTokens, hc, List.takeWhile_cons, hkw, Bool.not_false]
      rw [ih]
      simp [updateBucket, addTokenToBucket]

/-- No bucket's term list contains a clause keyword. -/
def bucketTermsOk (b : SimpleQuery) : Prop :=
  ∀ t ∈ b.terms, isClauseKeyword t = false

def noClauseTerms (q : CompoundQuery) : Prop :=
  bucketTermsOk q.main ∧ bucketTermsOk q.ancestor ∧ bucketTermsOk q.user ∧
    bucketTermsOk q.place

theorem updateBucket_noClause (q : CompoundQuery) (cur : BucketId)
    (t : String) (h : noClauseTerms q) (ht : isClauseKeyword t = false) :
    noClauseTerms (updateBucket q cur t) := by
  obtain ⟨h1, h2, h3, h4⟩ := h
  have step : ∀ b : SimpleQuery, bucketTermsOk b →
      bucketTermsOk (addTokenToBucket b t) := by
    intro b hb x hx
    simp only [addTokenToBucket, List.mem_append, List.mem_singleton] at hx
    rcases hx with hx | rfl
    · exact hb x hx
    · exact ht
  cases cur with
  | main => exact ⟨step _ h1, h2, h3, h4⟩
  | ancestor => exact ⟨h1, step _ h2, h3, h4⟩
  | user => exact ⟨h1, h2, step _ h3, h4⟩
  | place => exact ⟨h1, h2, h3, step _ h4⟩

theorem scan_noClause :
    ∀ (toks : List String) (cur : BucketId) (q : CompoundQuery),
      noClauseTerms q → noClauseTerms (scanTokens toks cur q) := by
  intro toks
  induction toks with
  | nil => intro cur q h; exact h
  | cons t rest ih =>
    intro cur q h
    cases hc : clauseBucket t with
    | some b =>
      simp only [scanTokens, hc]
      exact ih b q h
    | none =>
      simp only [scanTokens, hc]
      have hkw : isClauseKeyword t = false := by simp [isClauseKeyword, hc]
      exact ih cur _ (updateBucket_noClause q cur t h hkw)

/-- Claim C1: for every raw query text with balanced quoting (i.e. text the
shell-style tokenizer accepts), `parse` succeeds and scans tokens
left-to-right into the four buckets with the subject (`main`) as the
default: the subject terms are exactly the tokens before the first clause
keyword, and no clause keyword appears in any bucket's term list. -/
theorem parse_clause_keyword_buckets :
    ∀ (raw : String) (toks : List String),
      shlexSplit raw = Except.ok toks →
      ∃ q, parse raw = Except.ok q ∧
        q.main.terms = toks.takeWhile (fun t => !isClauseKeyword t) ∧
        (∀ t ∈ q.main.terms, isClauseKeyword t = false) ∧
        (∀ t ∈ q.ancestor.terms, isClauseKeyword t = false) ∧
        (∀ t ∈ q.user.terms, isClauseKeyword t = false) ∧
        (∀ t ∈ q.place.terms, isClauseKeyword t = false) := by
  intro raw toks h
  refine ⟨scanTokens toks .main {}, ?_, ?_, ?_, ?_, ?_, ?_⟩
  · simp [parse, h]
  · simpa using scan_main_terms toks {}
  all_goals {
    have hnc : noClauseTerms (scanTokens toks .main {}) := by
      refine scan_noClause toks .main {} ?_
      refine ⟨?_, ?_, ?_, ?_⟩ <;> (intro t ht; cases ht)
    first
      | exact hnc.1
      | exact hnc.2.1
      | exact hnc.2.2.1
      | exact hnc.2.2.2 }

theorem parse_clause_keyword_buckets_witness :
    ∃ q, parse "birds In animals by me from home" = Except.ok q ∧
      q.main.terms =
        (["birds", "In", "animals", "by", "me", "from",
          "home"].takeWhile (fun t => !isClauseKeyword t)) ∧
      (∀ t ∈ q.main.terms, isClauseKeyword t = false) ∧
      (∀ t ∈ q.ancestor.terms, isClauseKeyword t = false) ∧
      (∀ t ∈ q.user.terms, isClauseKeyword t = false) ∧
      (∀ t ∈ q.place.terms, isClauseKeyword t = false) :=
  parse_clause_keyword_buckets "birds In animals by me from home"
    ["birds", "In", "animals", "by", "me", "from", "home"] rfl

/-- In a bucket, the rank filters are exactly the canonical ranks of the
rank-keyword terms (so rank keywords stay in the term list and are recorded
as filters). -/
def bucketRanksOk (b : SimpleQuery) : Prop :=
  b.ranks = (b.terms.filter (fun t => isRankKeyword t)).map canonicalRank

def ranksDerived (q : CompoundQuery) : Prop :=
  bucketRanksOk q.main ∧ bucketRanksOk q.ancestor ∧ bucketRanksOk q.user ∧
    bucketRanksOk q.place

theorem addTokenToBucket_ranks (b : SimpleQuery) (t : String)
    (h : bucketRanksOk b) : bucketRanksOk (addTokenToBucket b t) := by
  unfold bucketRanksOk addTokenToBucket at *
  simp only [List.filter_append, List.map_append, h]
  cases hr : isRankKeyword t <;> simp [List.filter, hr]

theorem updateBucket_ranks (q : CompoundQuery) (cur : BucketId) (t : String)
    (h : ranksDerived q) : ranksDerived (updateBucket q cur t) := by
  obtain ⟨h1, h2, h3, h4⟩ := h
  cases cur with
  | main => exact ⟨addTokenToBucket_ranks _ t h1, h2, h3, h4⟩
  | ancestor => exact ⟨h1, addTokenToBucket_ranks _ t h2, h3, h4⟩
  | user => exact ⟨h1, h2, addTokenToBucket_ranks _ t h3, h4⟩
  | place => exact ⟨h1, h2, h3, addTokenToBucket_ranks _ t h4⟩

theorem scan_ranksDerived :
    ∀ (toks : List String) (cur : BucketId) (q : CompoundQuery),
      ranksDerived q → ranksDerived (scanTokens toks cur q) := by
  intro toks
  induction toks with
  | nil => intro cur q h; exact h
  | cons t rest ih =>
    intro cur q h
    cases hc : clauseBucket t with
    | some b =>
      simp only [scanTokens, hc]
      exact ih b q h
    | none =>
      simp only [scanTokens, hc]
      exact ih cur _ (updateBucket_ranks q cur t h)

/-- Claim C3: in every parsed query, each bucket's rank filters are exactly
the canonical ranks of the tokens in that bucket that match the Rank
Vocabulary — rank-keyword tokens are recorded as rank filters of the bucket
they were found in while remaining in that bucket's term list. -/
theorem parse_rank_filters :
    ∀ (raw : String) (q : CompoundQuery),
      parse raw = Except.ok q →
      (q.main.ranks =
        (q.main.terms.filter (fun t => isRankKeyword t)).map canonicalRank) ∧
      (q.ancestor.ranks =
        (q.ancestor.terms.filter (fun t => isRankKeyword t)).map
          canonicalRank) ∧
      (q.user.ranks =
        (q.user.terms.filter (fun t => isRankKeyword t)).map canonicalRank) ∧
      (q.place.ranks =
        (q.place.terms.filter (fun t => isRankKeyword t)).map canonicalRank) ∧
      (∀ t ∈ q.main.terms, isRankKeyword t = true →
        canonicalRank t ∈ q.main.ranks) := by
  intro raw q h
  unfold parse at h
  cases hs : shlexSplit raw with
  | error m => rw [hs] at h; cases h
  | ok toks =>
    rw [hs] at h
    have hq : q = scanTokens toks .main {} := by
      cases h; rfl
    subst hq
    have hd : ranksDerived (scanTokens toks .main {}) := by
      refine scan_ranksDerived toks .main {} ?_
      exact ⟨rfl, rfl, rfl, rfl⟩
    obtain ⟨h1, h2, h3, h4⟩ := hd
    refine ⟨h1, h2, h3, h4, ?_⟩
    intro t ht hrk
    rw [h1]
    exact List.mem_map_of_mem canonicalRank (List.mem_filter.mpr ⟨ht, hrk⟩)

theorem parse_rank_filters_witness :
    (({ main := ⟨["bear", "family"], ["family"]⟩ } :
        CompoundQuery).main.ranks =
      (({ main := ⟨["bear", "family"], ["family"]⟩ } :
          CompoundQuery).main.terms.filter
        (fun t => isRankKeyword t)).map canonicalRank) ∧
    (({ main := ⟨["bear", "family"], ["family"]⟩ } :
        CompoundQuery).ancestor.ranks =
      (({ main := ⟨["bear", "family"], ["family"]⟩ } :
          CompoundQuery).ancestor.terms.filter
        (fun t => isRankKeyword t)).map canonicalRank) ∧
    (({ main := ⟨["bear", "family"], ["family"]⟩ } :
        CompoundQuery).user.ranks =
      (({ main := ⟨["bear", "family"], ["family"]⟩ } :
          CompoundQuery).user.terms.filter
        (fun t => isRankKeyword t)).map canonicalRank) ∧
    (({ main := ⟨["bear", "family"], ["family"]⟩ } :
        CompoundQuery).place.ranks =
      (({ main := ⟨["bear", "family"], ["family"]⟩ } :
          CompoundQuery).place.terms.filter
        (fun t => isRankKeyword t)).map canonicalRank) ∧
    (∀ t ∈ ({ main := ⟨["bear", "family"], ["family"]⟩ } :
        CompoundQuery).main.terms,
      isRankKeyword t = true →
        canonicalRank t ∈ ({ main := ⟨["bear", "family"], ["family"]⟩ } :
          CompoundQuery).main.ranks) :=
  parse_rank_filters "bear family"
    { main := ⟨["bear", "family"], ["family"]⟩ } rfl

/-! ### Fail-fast multi-taxon resolution -/

theorem resolveSegments_fail
    (resolve : String → Except String ResolvedTaxon) (post : List String)
    (bad : String) (e : String) (hbad : resolve bad = .error e) :
    ∀ pre : List String, (∀ s ∈ pre, isOkB (resolve s) = true) →
      resolveSegments resolve (pre ++ bad :: post) = .error e := by
  intro pre
  induction pre with
  | nil => intro _; simp [resolveSegments, hbad]
  | cons p rest ih =>
    intro hok
    have hp : isOkB (resolve p) = true := hok p (by simp)
    obtain ⟨t, ht⟩ := (isOkB_iff _).mp hp
    simp only [List.cons_append, resolveSegments, ht, List.append_eq]
    rw [ih (fun s hs => hok s (by simp [hs]))]

/-- Claim C6: `query_taxa` resolves comma segments independently and fails
with the first per-segment error, producing no partial results; on such an
error the `related` and `map` commands render only the error apology and
never a result embed. -/
theorem query_taxa_fail_fast :
    ∀ (resolve : String → Except String ResolvedTaxon) (raw : String)
      (pre : List String) (bad : String) (post : List String) (e : String),
      raw ≠ "" →
      splitCommas raw = pre ++ bad :: post →
      (∀ s ∈ pre, isOkB (resolve s) = true) →
      resolve bad = Except.error e →
      query_taxa resolve raw = Except.error e ∧
      relatedCommand resolve raw = TaxaCmdOutcome.apology e ∧
      mapCommand resolve raw = TaxaCmdOutcome.apology e := by
  intro resolve raw pre bad post e hraw hsplit hok hbad
  have hq : query_taxa resolve raw = .error e := by
    unfold query_taxa
    rw [hsplit]
    exact resolveSegments_fail resolve post bad e hbad pre hok
  refine ⟨hq, ?_, ?_⟩ <;> simp [relatedCommand, mapCommand, hraw, hq]

/-- A concrete single-taxon resolver for the fail-fast witness: knows only
taxon 24255. -/
def sampleResolve (s : String) : Except String ResolvedTaxon :=
  if s = "24255" then .ok ⟨⟨24255, "species"⟩⟩ else .error "Nothing found"

theorem query_taxa_fail_fast_witness :
    query_taxa sampleResolve "24255,24267" = Except.error "Nothing found" ∧
    relatedCommand sampleResolve "24255,24267" =
      TaxaCmdOutcome.apology "Nothing found" ∧
    mapCommand sampleResolve "24255,24267" =
      TaxaCmdOutcome.apology "Nothing found" :=
  query_taxa_fail_fast sampleResolve "24255,24267" ["24255"] "24267" []
    "Nothing found" (by decide) rfl (by decide) rfl
